import Mathlib

/-!
Verification of the chws_subset pipeline (src/chws_subset/__init__.py and
src/chws_subset/__main__.py).

The development is a shallow embedding of the repository's code:

* Filesystem paths are modelled as component lists (mirroring pathlib.Path,
  whose `/` operator appends one component and whose `.name` is the last
  component).
* The filesystem is an association list from paths to decoded file contents;
  a write prepends, a read returns the most recent entry.
* Each pipeline function becomes a state-passing function over a `World`
  (filesystem plus an append-only log of the line-oriented status messages
  the source prints); Python exceptions become `Except` errors, and state
  produced before an exception is kept, as on a real filesystem.
* External collaborators (chws_tool, fontTools, nototools, httpx) are not
  part of the repository; they are modelled from the contracts the design
  document fixes for them in its external-interfaces section, and each such
  model is marked in its doc comment.
* The two concurrency claims get dedicated small-step models: a counting
  gate transition system for the download semaphore, and an interleaving
  model for the per-collection task graph.
-/

/-! ## Paths and file contents -/

/-- A filesystem path, as a list of components. Mirrors pathlib.Path: the
Python `/` operator is `++ [component]`, and `Path(p).name` is the last
component. -/
abbrev FPath := List String

/-- Mirrors `Path(p).name`: the last path component. -/
def pathName (p : FPath) : String := p.getLastD ("")

/-- Vertical metrics variation table, as far as the worker touches it:
`font['VVAR'].table.VOrgMap` is a nullable field; everything else in the
table is opaque payload. -/
structure VVARTable where
  VOrgMap : Option Nat
  restData : Nat
  deriving DecidableEq, Repr

/-- Decoded font, with exactly the structure process_ttf_worker manipulates:
the character map (codepoint to glyph id pairs), the optional variable-axis
table (present iff the Python test `'fvar' in font` succeeds), the optional
vertical-origin table VORG, the optional VVAR table, the naming metadata and
the remaining tables as opaque payloads, plus a flag recording whether the
external chws patch has been applied. -/
structure Font where
  cmap : List (Nat × Nat)
  fvarAxes : Option (List String)
  VORG : Option Nat
  VVAR : Option VVARTable
  nameData : Nat
  chwsApplied : Bool
  glyphData : Nat
  deriving DecidableEq, Repr

/-- Decoded content of a file: a single font, a font collection (the file
begins with the `ttcf` magic tag iff it decodes as `ttc`), or raw bytes
(the installer script download). -/
inductive FileData where
  | ttf (f : Font)
  | ttc (fonts : List Font)
  | raw (bytes : List Nat)
  deriving DecidableEq, Repr

/-- The filesystem: an association list from paths to contents; the head is
the newest write. -/
abbrev FS := List (FPath × FileData)

/-- Read a file: the most recent write to that path, if any. -/
def FS.read (fs : FS) (p : FPath) : Option FileData :=
  (fs.find? (fun e => e.1 == p)).map (fun e => e.2)

/-- Write a file (mkdir of parents is implicit in the model; the source's
ensure_parent_dir only creates directories and is otherwise a no-op). -/
def FS.write (fs : FS) (p : FPath) (d : FileData) : FS := (p, d) :: fs

/-! ## Status messages and errors -/

/-- One log entry per print / logging call in the source: FETCH, the
logging.error line of download_file, UNTTC (whole container and per member),
ADD_CHWS, SUBSET, VFINST, TTF, TTC. -/
inductive Ev where
  | fetch (dest : FPath)
  | logError (url : String)
  | unttc (src : FPath)
  | unttcMember (src : FPath) (dst : FPath)
  | addChws (src : FPath)
  | subset (p : FPath)
  | vfinst (p : FPath)
  | ttfOut (p : FPath)
  | ttcOut (p : FPath)
  deriving DecidableEq, Repr

/-- Python exceptions that the embedded fragment can raise: FileNotFoundError
from opening a missing file, KeyError from a mapping lookup or deletion
(fontTools table access), and a decode failure from handing a non-font file
to the font library. -/
inductive Err where
  | fileNotFound (p : FPath)
  | keyError (tag : String)
  | notAFont (p : FPath)
  deriving DecidableEq, Repr

/-- Program state: the filesystem and the log of status messages. -/
structure World where
  fs : FS
  log : List Ev
  deriving DecidableEq, Repr

/-- A state-passing computation: from a world to a result (or a raised
error) and the successor world. Side effects performed before an error are
kept, as on a real filesystem. -/
def M (α : Type) : Type := World → Except Err α × World

/-- Sequencing: run the first computation; on success continue, on error
propagate the error together with the state reached so far. -/
def M.bind {α β : Type} (x : M α) (f : α → M β) : M β := fun w =>
  match x w with
  | (Except.ok a, w1) => f a w1
  | (Except.error e, w1) => (Except.error e, w1)

/-- Return a value without touching the state. -/
def M.pure {α : Type} (a : α) : M α := fun w => (Except.ok a, w)

/-- Raise an error (a Python exception). -/
def M.raise {α : Type} (e : Err) : M α := fun w => (Except.error e, w)

/-- Append one status message to the log (a print / logging call). -/
def emit (e : Ev) : M Unit := fun w =>
  (Except.ok (), { w with log := w.log ++ [e] })

/-- Open a file for reading; FileNotFoundError when it does not exist. -/
def readFile (p : FPath) : M FileData := fun w =>
  match w.fs.read p with
  | some d => (Except.ok d, w)
  | none => (Except.error (Err.fileNotFound p), w)

/-- Write a file. -/
def writeFile (p : FPath) (d : FileData) : M Unit := fun w =>
  (Except.ok (), { w with fs := w.fs.write p d })

/-! ## The excluded codepoints (src/chws_subset/__init__.py lines 15 to 66) -/

/-- Characters supported in Noto CJK fonts that UTR number 51 recommends
default to emoji-style (EMOJI_IN_CJK in the source, verbatim). -/
def EMOJI_IN_CJK : Finset Nat :=
  {0x26BD, 0x26BE, 0x1F18E, 0x1F191, 0x1F192, 0x1F193, 0x1F194, 0x1F195,
   0x1F196, 0x1F197, 0x1F198, 0x1F199, 0x1F19A, 0x1F201, 0x1F21A, 0x1F22F,
   0x1F232, 0x1F233, 0x1F234, 0x1F235, 0x1F236, 0x1F238, 0x1F239, 0x1F23A,
   0x1F250, 0x1F251}

/-- Characters done as emoji-style in Android despite UTR number 51
(ANDROID_EMOJI in the source, verbatim). -/
def ANDROID_EMOJI : Finset Nat :=
  {0x2600, 0x2601, 0x260E, 0x261D, 0x263A, 0x2660, 0x2663, 0x2665, 0x2666,
   0x270C, 0x2744, 0x2764}

/-- Modelled from the spec: nototools tool_utils.parse_int_ranges applied to
the range literal 0000-001F yields the inclusive set of ASCII control
characters 0x0000 to 0x001F. -/
def CONTROL_CHARS : Finset Nat := Finset.range 0x20

/-- The frozen exclusion set: the union of the three documented sets
(frozenset of the Python set union; sorting does not change the set). -/
def EXCLUDED_CODEPOINTS : Finset Nat :=
  EMOJI_IN_CJK ∪ ANDROID_EMOJI ∪ CONTROL_CHARS

/-! ## External collaborators, per the design document's fixed contracts -/

/-- Modelled from the spec: the external patch operation (chws_tool.add_chws)
reads the input font, adds the contextual-halfwidth-spacing feature, and
writes the result; per the spec only the patched tables change, so the model
marks the font as patched and leaves the character map, axes, auxiliary
tables and naming metadata alone. -/
def add_chws_patch (f : Font) : Font := { f with chwsApplied := true }

/-- Modelled from the spec: nototools font_data.delete_from_cmap removes
every listed codepoint from the character map, tolerant of codepoints absent
from the map. -/
def delete_from_cmap (f : Font) (cps : Finset Nat) : Font :=
  { f with cmap := f.cmap.filter (fun e => decide (e.1 ∉ cps)) }

/-- Modelled from the spec: fontTools instancer.instantiateVariableFont
resolves the named axis to the given min / default / max instance tuple,
producing a static (non-variable) font; with updateFontNames set to false
the naming metadata is left unmodified (the model marks a name rewrite
abstractly when the flag is true). -/
def instantiateVariableFont (f : Font) (axis : String)
    (lo df hi : Nat) (updateFontNames : Bool) : Font :=
  { f with fvarAxes := none,
           nameData := if updateFontNames then f.nameData + 1 else f.nameData }

/-! ## process_ttf_worker (src/chws_subset/__init__.py lines 71 to 96) -/

/-- Staging location of the chws intermediate:
Path(temp_dir) / "intermediate_chws" / Path(in_ttf).name. -/
def chwsOutputPath (temp_dir in_ttf : FPath) : FPath :=
  temp_dir ++ [("intermediate_chws"), pathName in_ttf]

/-- Embeds process_ttf_worker: print ADD_CHWS and apply the external patch
into the staging intermediate; print SUBSET, load the intermediate and drop
the excluded codepoints from its cmap; if the fvar table is present, print
VFINST, delete the VORG table (KeyError when absent, mapping semantics of
fontTools TTFont), set the VOrgMap of the VVAR table to None (KeyError when
VVAR is absent), and resolve the wght axis with the tuple 100 / 400 / 900
without updating font names; finally print TTF and save to out_ttf. -/
def process_ttf_worker (in_ttf out_ttf temp_dir : FPath) : M Unit :=
  M.bind (emit (Ev.addChws in_ttf)) fun _ =>
  M.bind (readFile in_ttf) fun d =>
  M.bind (match d with
          | FileData.ttf f => M.pure (add_chws_patch f)
          | _ => M.raise (Err.notAFont in_ttf)) fun f0 =>
  M.bind (writeFile (chwsOutputPath temp_dir in_ttf) (FileData.ttf f0)) fun _ =>
  M.bind (emit (Ev.subset (chwsOutputPath temp_dir in_ttf))) fun _ =>
  M.bind (readFile (chwsOutputPath temp_dir in_ttf)) fun d1 =>
  M.bind (match d1 with
          | FileData.ttf f => M.pure f
          | _ => M.raise (Err.notAFont (chwsOutputPath temp_dir in_ttf))) fun f1 =>
  M.bind (M.pure (delete_from_cmap f1 EXCLUDED_CODEPOINTS)) fun font =>
  M.bind (if font.fvarAxes.isSome then
            M.bind (emit (Ev.vfinst (chwsOutputPath temp_dir in_ttf))) fun _ =>
            M.bind (match font.VORG with
                    | some _ => M.pure { font with VORG := none }
                    | none => M.raise (Err.keyError ("VORG"))) fun fontA =>
            M.bind (match fontA.VVAR with
                    | some vv => M.pure vv
                    | none => M.raise (Err.keyError ("VVAR"))) fun vv =>
            M.pure (instantiateVariableFont
                      { fontA with VVAR := some { vv with VOrgMap := none } }
                      ("wght") 100 400 900 false)
          else M.pure font) fun fontOut =>
  M.bind (emit (Ev.ttfOut out_ttf)) fun _ =>
  writeFile out_ttf (FileData.ttf fontOut)

/-! ## download_file (src/chws_subset/__init__.py lines 99 to 125) -/

/-- An HTTP exchange as download_file observes it: the final status code
(redirects already followed) and what the streamed body decodes to. -/
structure HttpResponse where
  status : Nat
  payload : FileData
  deriving DecidableEq, Repr

/-- Embeds download_file: print FETCH, issue the single streaming GET; when
the status code differs from 200, log an error and return False without
writing; otherwise stream the body to the destination and return True. The
optional async context argument (the semaphore) only scopes the transfer and
is modelled by the gate transition system further below. -/
def download_file (resp : HttpResponse) (url : String) (save : FPath) : M Bool :=
  M.bind (emit (Ev.fetch save)) fun _ =>
  if resp.status ≠ 200 then
    M.bind (emit (Ev.logError url)) fun _ => M.pure false
  else
    M.bind (writeFile save resp.payload) fun _ => M.pure true

/-! ## Collection codec (src/chws_subset/__init__.py lines 128 to 161) -/

/-- The filename of member i of an unpacked container:
Path(in_ttc).name + the hash sign + the decimal index + the ttf suffix. -/
def memberFileName (in_ttc : FPath) (i : Nat) : String :=
  pathName in_ttc ++ ("#") ++ Nat.repr i ++ (".ttf")

/-- The path member i is written to: Path(out_dir) / memberFileName. -/
def memberPath (out_dir in_ttc : FPath) (i : Nat) : FPath :=
  out_dir ++ [memberFileName in_ttc i]

/-- Embeds unpack_ttc_worker: print the member line, open the collection
(a decode failure on a non-collection file), take member index, and save it
as a single font at out_file. -/
def unpack_ttc_worker (in_ttc : FPath) (index : Nat) (out_file : FPath) : M Unit :=
  M.bind (emit (Ev.unttcMember in_ttc out_file)) fun _ =>
  M.bind (readFile in_ttc) fun d =>
  match d with
  | FileData.ttc fonts =>
      match fonts[index]? with
      | some f => writeFile out_file (FileData.ttf f)
      | none => M.raise (Err.keyError ("ttc member index"))
  | _ => M.raise (Err.notAFont in_ttc)

/-- Sequential linearization of asyncio.gather over per-member worker tasks.
The workers of one call write pairwise distinct paths and only read the
container, so every interleaving yields this same final state; the proofs
below establish exactly that read / write footprint. -/
def gatherSeq : List (M Unit) → M Unit
  | [] => M.pure ()
  | t :: ts => M.bind t fun _ => gatherSeq ts

/-- Embeds unpack_ttc: print UNTTC, open the container to learn its length,
launch one unpack_ttc_worker per member index writing to memberPath, await
them all, and return the ordered list of written paths (the source builds
the same list in its loop over range(len(ttc))). -/
def unpack_ttc (in_ttc out_dir : FPath) : M (List FPath) :=
  M.bind (emit (Ev.unttc in_ttc)) fun _ =>
  M.bind (readFile in_ttc) fun d =>
  match d with
  | FileData.ttc fonts =>
      M.bind (gatherSeq ((List.range fonts.length).map
                (fun i => unpack_ttc_worker in_ttc i (memberPath out_dir in_ttc i)))) fun _ =>
      M.pure ((List.range fonts.length).map (memberPath out_dir in_ttc))
  | _ => M.raise (Err.notAFont in_ttc)

/-- The read loop of pack_ttc: open each listed path as a single font, in
the given order (a decode failure on anything else). -/
def packLoop : List FPath → M (List Font)
  | [] => M.pure []
  | p :: rest =>
      M.bind (readFile p) fun d =>
      match d with
      | FileData.ttf f =>
          M.bind (packLoop rest) fun fs => M.pure (f :: fs)
      | _ => M.raise (Err.notAFont p)

/-- Embeds pack_ttc: print TTC, append each member font in the order of the
given path list to a fresh collection, and save it at out_ttc. -/
def pack_ttc (ttfs : List FPath) (out_ttc : FPath) : M Unit :=
  M.bind (emit (Ev.ttcOut out_ttc)) fun _ =>
  M.bind (packLoop ttfs) fun fonts =>
  writeFile out_ttc (FileData.ttc fonts)

/-- Embeds is_ttc: the first four bytes of the file equal the ttcf magic tag
iff the file decodes as a collection (FileNotFoundError when absent). -/
def is_ttc (file_path : FPath) : M Bool :=
  M.bind (readFile file_path) fun d =>
  match d with
  | FileData.ttc _ => M.pure true
  | _ => M.pure false

/-! ## Orchestration (src/chws_subset/__init__.py lines 164 to 193 and
src/chws_subset/__main__.py) -/

/-- Embeds process_ttf: run process_ttf_worker in the pool and await it. -/
def process_ttf (in_ttf out_ttf temp_dir : FPath) : M Unit :=
  process_ttf_worker in_ttf out_ttf temp_dir

/-- Staging path of the raw member i of a collection:
Path(temp_dir) / "input_ttf" / (Path(in_ttc).name + the indexed suffix). -/
def inputTtfPath (temp_dir in_ttc : FPath) (i : Nat) : FPath :=
  temp_dir ++ [("input_ttf"), memberFileName in_ttc i]

/-- Staging path of the processed member i of a collection:
Path(temp_dir) / "processed_ttf" / (Path(in_ttc).name + the indexed suffix). -/
def processedTtfPath (temp_dir in_ttc : FPath) (i : Nat) : FPath :=
  temp_dir ++ [("processed_ttf"), memberFileName in_ttc i]

/-- The ordered path list process_ttc hands to pack_ttc: the processed
member paths for indices 0 through n-1 in original member order (out_ttfs
in the source). -/
def processTtcPackArgs (temp_dir in_ttc : FPath) (n : Nat) : List FPath :=
  (List.range n).map (processedTtfPath temp_dir in_ttc)

/-- Embeds the inner coroutine unpack_and_process_ttf of process_ttc: unpack
member index into the input_ttf staging area, then transform it to ttf_out. -/
def unpack_and_process_ttf (temp_dir in_ttc : FPath) (index : Nat) (ttf_out : FPath) : M Unit :=
  M.bind (unpack_ttc_worker in_ttc index (inputTtfPath temp_dir in_ttc index)) fun _ =>
  process_ttf (inputTtfPath temp_dir in_ttc index) ttf_out temp_dir

/-- Embeds process_ttc: open the container to learn its length, run the
unpack-and-transform coroutine of every member (awaited together by
asyncio.gather; linearized here, see gatherSeq), and only then pack the
processed members, in original order, to out_ttc. -/
def process_ttc (in_ttc out_ttc temp_dir : FPath) : M Unit :=
  M.bind (readFile in_ttc) fun d =>
  match d with
  | FileData.ttc fonts =>
      M.bind (gatherSeq ((List.range fonts.length).map
                (fun i => unpack_and_process_ttf temp_dir in_ttc i
                            (processedTtfPath temp_dir in_ttc i)))) fun _ =>
      pack_ttc (processTtcPackArgs temp_dir in_ttc fonts.length) out_ttc
  | _ => M.raise (Err.notAFont in_ttc)

/-- Embeds process_font: probe the magic tag, then process as a collection
or as a single font. -/
def process_font (in_font out_font temp_dir : FPath) : M Unit :=
  M.bind (is_ttc in_font) fun b =>
  if b then process_ttc in_font out_font temp_dir
  else process_ttf in_font out_font temp_dir

/-- The staging root of a run: Path("temp") in main. -/
def tempRoot : FPath := [("temp")]

/-- Split a character list at every slash (the str.split of the source,
written as structural recursion so that concrete runs evaluate). -/
def splitSlash : List Char → List Char → List String
  | [], acc => [String.mk acc.reverse]
  | c :: rest, acc =>
      if c = '/' then String.mk acc.reverse :: splitSlash rest []
      else splitSlash rest (c :: acc)

/-- Embeds base_file_name of main: the last slash-separated segment of the
URL path, urlparse(url).path.split with a slash, last element (URLs here
carry no query or fragment). -/
def base_file_name (url : String) : String := (splitSlash url.data []).getLastD ("")

/-- Embeds the inner coroutine download_and_process_file of main: download
the URL into temp/input/base (the boolean result of download_file is
discarded, exactly as in the source), then process the input file into
system/fonts/base. -/
def download_and_process_file (resp : HttpResponse) (url : String) : M Unit :=
  M.bind (download_file resp url (tempRoot ++ [("input"), base_file_name url])) fun _ =>
  process_font (tempRoot ++ [("input"), base_file_name url])
    ([("system"), ("fonts")] ++ [base_file_name url]) tempRoot

/-- Outcome of one awaited asset chain, as asyncio.gather sees it. -/
abbrev ChainResult := Except Err Unit

/-- Embeds asyncio.gather over the chain coroutines of main: when every
chain settles successfully gather returns normally, otherwise the raised
failure propagates to the awaiting caller. -/
def gatherResults : List ChainResult → ChainResult
  | [] => Except.ok ()
  | Except.ok _ :: rest => gatherResults rest
  | Except.error e :: _ => Except.error e

/-- Embeds the tail of main (src/chws_subset/__main__.py lines 45 to 47):
await asyncio.gather(*futures), then executor.shutdown(), then
shutil.rmtree(temp_dir), in source order with no try / finally around the
teardown. The second component counts the shutil.rmtree invocations that
actually execute on that control path. -/
def mainDriver (chains : List ChainResult) : ChainResult × Nat :=
  match gatherResults chains with
  | Except.ok _ => (Except.ok (), 1)
  | Except.error e => (Except.error e, 0)

/-! ## The download concurrency gate (asyncio.Semaphore(2) in main)

Small-step model of the cooperative scheduler's download tasks. Each task
is a download_file invocation; it is gated when main passes download_sem as
the async context (the two font-asset downloads) and ungated when main
passes nothing (the installer-script download at line 43 of
src/chws_subset/__main__.py). A gated task acquires one slot before its
transfer starts and releases it when the transfer completes, successful or
not; an ungated task starts and finishes without touching the gate. -/

/-- Phase of one download task. -/
inductive TaskPhase where
  | pending
  | active
  | done
  deriving DecidableEq, Repr

/-- One download task: whether it goes through the semaphore, and its
current phase. -/
abbrev GateTask := Bool × TaskPhase

/-- Scheduler state: free slots of the counting gate, and the tasks. -/
structure GateState where
  sem : Nat
  tasks : List GateTask
  deriving DecidableEq, Repr

/-- The scheduler's atomic transitions. A gated transfer can only start by
consuming a free slot (async with sem), and returns the slot when it
finishes, on success and on failure alike; an ungated transfer never touches
the gate (the nullcontext branch of download_file). -/
inductive GateStep : GateState → GateState → Prop where
  | startGated (k : Nat) (l r : List GateTask) :
      GateStep ⟨k + 1, l ++ (true, TaskPhase.pending) :: r⟩
               ⟨k, l ++ (true, TaskPhase.active) :: r⟩
  | startUngated (k : Nat) (l r : List GateTask) :
      GateStep ⟨k, l ++ (false, TaskPhase.pending) :: r⟩
               ⟨k, l ++ (false, TaskPhase.active) :: r⟩
  | finishGated (k : Nat) (l r : List GateTask) :
      GateStep ⟨k, l ++ (true, TaskPhase.active) :: r⟩
               ⟨k + 1, l ++ (true, TaskPhase.done) :: r⟩
  | finishUngated (k : Nat) (l r : List GateTask) :
      GateStep ⟨k, l ++ (false, TaskPhase.active) :: r⟩
               ⟨k, l ++ (false, TaskPhase.done) :: r⟩

/-- The run's start state: the gate holds its full capacity and every
download is pending. -/
def gateInit (cap : Nat) (gating : List Bool) : GateState :=
  ⟨cap, gating.map (fun g => (g, TaskPhase.pending))⟩

/-- States the scheduler can reach in a run with the given capacity and
gating assignment. -/
inductive GateReach (cap : Nat) (gating : List Bool) : GateState → Prop where
  | init : GateReach cap gating (gateInit cap gating)
  | step {s s1 : GateState} : GateReach cap gating s → GateStep s s1 →
      GateReach cap gating s1

/-- Number of downloads whose transfer is currently in flight. -/
def activeCount (s : GateState) : Nat :=
  s.tasks.countP (fun t => t.2 == TaskPhase.active)

/-- Number of in-flight downloads that went through the gate. -/
def gatedActiveCount (s : GateState) : Nat :=
  s.tasks.countP (fun t => t.1 && t.2 == TaskPhase.active)

/-- The gating assignment of the default run of main: the two font-asset
downloads receive download_sem, the appended installer-script download
receives no context. -/
def mainGating : List Bool := [true, true, false]

/-- The gate capacity of main: asyncio.Semaphore(2). -/
def mainGateCap : Nat := 2

/-! ## The per-collection task graph (process_ttc)

Interleaving model of one process_ttc call with n members. Each member
coroutine performs its unpack step and then its transform step, in that
order (the awaits inside unpack_and_process_ttf); asyncio.gather awaits all
n coroutines, and only then does process_ttc run pack_ttc. An execution is
therefore any interleaving of the n member coroutines followed by the pack
step. -/

/-- The atomic steps of one process_ttc call. -/
inductive CollEv where
  | unpackStep (i : Nat)
  | transformStep (i : Nat)
  | packStep
  deriving DecidableEq, Repr

/-- The ordered step sequence of member coroutine i. -/
def memberCoro (i : Nat) : List CollEv :=
  [CollEv.unpackStep i, CollEv.transformStep i]

/-- All member steps of a collection with n members. -/
def memberSteps (n : Nat) : List CollEv := (List.range n).flatMap memberCoro

/-- A valid interleaving of the n member coroutines: it consists of exactly
their steps, and each coroutine's own steps appear in program order (as a
sublist). -/
def ValidInterleaving (n : Nat) (σ : List CollEv) : Prop :=
  σ.Perm (memberSteps n) ∧ ∀ i, i < n → (memberCoro i).Sublist σ

/-- A valid execution of process_ttc with n members: some valid interleaving
of the member coroutines, then the pack step (the source awaits
asyncio.gather(*coros) and then calls pack_ttc). -/
def ValidExec (n : Nat) (τ : List CollEv) : Prop :=
  ∃ σ, ValidInterleaving n σ ∧ τ = σ ++ [CollEv.packStep]

/-- Position of the first occurrence of a step in an execution. -/
def stepPos (a : CollEv) : List CollEv → Nat
  | [] => 0
  | b :: t => if b = a then 0 else stepPos a t + 1

/-- The font process_ttf_worker saves when the variable-font branch runs to
completion: the patched, cmap-subset font with the VORG table deleted, the
VOrgMap of its VVAR table cleared, and the wght axis resolved with the tuple
100 / 400 / 900 without updating font names. Stated as a definition so the
theorems below can name the exact output. -/
def vfInstanced (f : Font) : Font :=
  instantiateVariableFont
    { delete_from_cmap (add_chws_patch f) EXCLUDED_CODEPOINTS with
      VORG := none,
      VVAR := (delete_from_cmap (add_chws_patch f) EXCLUDED_CODEPOINTS).VVAR.map
        (fun vv => { vv with VOrgMap := none }) }
    ("wght") 100 400 900 false

/-! ## Decimal rendering is injective

The member filename embeds the decimal index (the f-string in the source);
the round-trip proofs need that distinct indices give distinct filenames, so
we prove that the decimal rendering Nat.repr used by the embedding is
injective, via the value of a digit string. -/

/-- Numeric value of one decimal digit character. -/
def digitVal (c : Char) : Nat := c.toNat - (Char.toNat '0')

/-- Numeric value of a most-significant-first decimal digit string. -/
def digitsVal (l : List Char) : Nat :=
  l.foldl (fun a c => a * 10 + digitVal c) 0

theorem digitVal_digitChar : ∀ k, k < 10 → digitVal (Nat.digitChar k) = k := by
  decide

theorem toDigitsCore_acc (b : Nat) :
    ∀ (fuel n : Nat) (ds : List Char),
      Nat.toDigitsCore b fuel n ds = Nat.toDigitsCore b fuel n [] ++ ds := by
  intro fuel
  induction fuel with
  | zero => intro n ds; rfl
  | succ fuel ih =>
      intro n ds
      simp only [Nat.toDigitsCore]
      by_cases h : n / b = 0
      · simp [h]
      · simp only [h, if_false]
        rw [ih (n / b) (Nat.digitChar (n % b) :: ds),
            ih (n / b) [Nat.digitChar (n % b)], List.append_assoc]
        rfl

theorem digitsVal_append_last (xs : List Char) (c : Char) :
    digitsVal (xs ++ [c]) = digitsVal xs * 10 + digitVal c := by
  simp [digitsVal, List.foldl_append]

theorem toDigitsCore_val :
    ∀ (fuel n : Nat), n < fuel →
      digitsVal (Nat.toDigitsCore 10 fuel n []) = n := by
  intro fuel
  induction fuel with
  | zero => intro n h; omega
  | succ fuel ih =>
      intro n h
      simp only [Nat.toDigitsCore]
      by_cases h0 : n / 10 = 0
      · have hn : n < 10 := by omega
        simp [h0, digitsVal, digitVal_digitChar (n % 10) (by omega)]
        omega
      · simp only [h0, if_false]
        rw [toDigitsCore_acc, digitsVal_append_last,
            ih (n / 10) (by omega), digitVal_digitChar (n % 10) (by omega)]
        omega

theorem toDigits_val (n : Nat) : digitsVal (Nat.toDigits 10 n) = n :=
  toDigitsCore_val (n + 1) n (Nat.lt_succ_self n)

theorem natRepr_injective : ∀ i j : Nat, Nat.repr i = Nat.repr j → i = j := by
  intro i j h
  have hd : Nat.toDigits 10 i = Nat.toDigits 10 j := congrArg String.data h
  calc i = digitsVal (Nat.toDigits 10 i) := (toDigits_val i).symm
    _ = digitsVal (Nat.toDigits 10 j) := by rw [hd]
    _ = j := toDigits_val j

/-! ## Path distinctness -/

theorem string_append_data (s t : String) : (s ++ t).data = s.data ++ t.data := rfl

theorem memberFileName_inj (p : FPath) (i j : Nat)
    (h : memberFileName p i = memberFileName p j) : i = j := by
  have hd := congrArg String.data h
  simp only [memberFileName, string_append_data, List.append_assoc] at hd
  have h1 : (Nat.repr i).data ++ (".ttf").data = (Nat.repr j).data ++ (".ttf").data :=
    List.append_cancel_left (List.append_cancel_left hd)
  exact natRepr_injective i j (String.ext (List.append_cancel_right h1))

theorem memberPath_inj (out_dir p : FPath) (i j : Nat)
    (h : memberPath out_dir p i = memberPath out_dir p j) : i = j := by
  have h1 := List.append_cancel_left h
  exact memberFileName_inj p i j (List.cons_eq_cons.mp h1).1

theorem memberPath_ne_container (out_dir p : FPath) (i : Nat) :
    memberPath out_dir p i ≠ p := by
  intro h
  have h1 : pathName p = memberFileName p i := by
    conv_lhs => rw [← h]
    simp [memberPath, pathName]
  have h2 := congrArg String.length h1
  simp only [memberFileName, String.length_append] at h2
  have h3 : ("#").length = 1 := rfl
  have h4 : (".ttf").length = 4 := rfl
  omega

/-! ## Filesystem read / write laws -/

theorem FS.read_write_self (fs : FS) (p : FPath) (d : FileData) :
    (fs.write p d).read p = some d := by
  simp [FS.read, FS.write, List.find?]

theorem FS.read_write_ne (fs : FS) (p q : FPath) (d : FileData) (h : q ≠ p) :
    (fs.write p d).read q = fs.read q := by
  unfold FS.read FS.write
  rw [List.find?]
  have hb : ((p, d).1 == q) = false := beq_eq_false_iff_ne.mpr (fun hh => h hh.symm)
  simp [hb]

/-! ## Running the unpack workers -/

theorem unpack_ttc_worker_run (in_ttc out : FPath) (i : Nat) (fonts : List Font)
    (f : Font) (w : World)
    (hread : w.fs.read in_ttc = some (FileData.ttc fonts))
    (hf : fonts[i]? = some f) :
    unpack_ttc_worker in_ttc i out w =
      (Except.ok (), ⟨w.fs.write out (FileData.ttf f),
                      w.log ++ [Ev.unttcMember in_ttc out]⟩) := by
  simp [unpack_ttc_worker, M.bind, emit, readFile, writeFile, hread, hf]

theorem gatherSeq_unpack_workers (in_ttc out_dir : FPath) (fonts : List Font) :
    ∀ (l : List Nat) (w : World),
      w.fs.read in_ttc = some (FileData.ttc fonts) →
      (∀ i ∈ l, i < fonts.length) →
      ∃ w1 : World,
        gatherSeq (l.map (fun i =>
            unpack_ttc_worker in_ttc i (memberPath out_dir in_ttc i))) w
          = (Except.ok (), w1) ∧
        (∀ q : FPath, (∀ i ∈ l, q ≠ memberPath out_dir in_ttc i) →
            w1.fs.read q = w.fs.read q) ∧
        (∀ j ∈ l, w1.fs.read (memberPath out_dir in_ttc j)
            = (fonts[j]?).map FileData.ttf) ∧
        w1.log = w.log ++ l.map (fun i =>
            Ev.unttcMember in_ttc (memberPath out_dir in_ttc i)) := by
  intro l
  induction l with
  | nil =>
      intro w _ _
      exact ⟨w, rfl, fun q _ => rfl, fun j hj => absurd hj (List.not_mem_nil j), by simp⟩
  | cons i t ih =>
      intro w hread hbound
      have hi : i < fonts.length := hbound i (List.mem_cons_self i t)
      have hf : fonts[i]? = some fonts[i] := List.getElem?_eq_getElem hi
      have hrun := unpack_ttc_worker_run in_ttc (memberPath out_dir in_ttc i) i fonts
        fonts[i] w hread hf
      set wA : World := ⟨w.fs.write (memberPath out_dir in_ttc i) (FileData.ttf fonts[i]),
                         w.log ++ [Ev.unttcMember in_ttc (memberPath out_dir in_ttc i)]⟩ with hwA
      have hreadA : wA.fs.read in_ttc = some (FileData.ttc fonts) := by
        rw [hwA]
        simpa [FS.read_write_ne _ _ _ _ (memberPath_ne_container out_dir in_ttc i).symm]
          using hread
      obtain ⟨w1, hg, hpres, hmem, hlog⟩ :=
        ih wA hreadA (fun k hk => hbound k (List.mem_cons_of_mem i hk))
      refine ⟨w1, ?_, ?_, ?_, ?_⟩
      · simp only [List.map_cons, gatherSeq, M.bind, hrun]
        exact hg
      · intro q hq
        rw [hpres q (fun k hk => hq k (List.mem_cons_of_mem i hk)), hwA]
        exact FS.read_write_ne _ _ _ _ (hq i (List.mem_cons_self i t))
      · intro j hj
        rcases List.mem_cons.mp hj with rfl | hjt
        · by_cases hjt2 : j ∈ t
          · exact hmem j hjt2
          · have hne : ∀ k ∈ t, memberPath out_dir in_ttc j ≠ memberPath out_dir in_ttc k := by
              intro k hk he
              exact hjt2 (memberPath_inj out_dir in_ttc j k he ▸ hk)
            rw [hpres (memberPath out_dir in_ttc j) hne, hwA]
            simp [FS.read_write_self, hf]
        · exact hmem j hjt
      · rw [hlog, hwA]
        simp

theorem unpack_ttc_run (in_ttc out_dir : FPath) (fonts : List Font) (w : World)
    (hread : w.fs.read in_ttc = some (FileData.ttc fonts)) :
    ∃ w1 : World,
      unpack_ttc in_ttc out_dir w =
        (Except.ok ((List.range fonts.length).map (memberPath out_dir in_ttc)), w1) ∧
      (∀ j, j < fonts.length →
        w1.fs.read (memberPath out_dir in_ttc j) = (fonts[j]?).map FileData.ttf) ∧
      (∀ q : FPath, (∀ i, i < fonts.length → q ≠ memberPath out_dir in_ttc i) →
        w1.fs.read q = w.fs.read q) ∧
      w1.log = (w.log ++ [Ev.unttc in_ttc]) ++ (List.range fonts.length).map
        (fun i => Ev.unttcMember in_ttc (memberPath out_dir in_ttc i)) := by
  have hreadE : (⟨w.fs, w.log ++ [Ev.unttc in_ttc]⟩ : World).fs.read in_ttc
      = some (FileData.ttc fonts) := hread
  obtain ⟨w1, hg, hpres, hmem, hlog⟩ := gatherSeq_unpack_workers in_ttc out_dir fonts
    (List.range fonts.length) ⟨w.fs, w.log ++ [Ev.unttc in_ttc]⟩ hreadE
    (fun i hi => List.mem_range.mp hi)
  refine ⟨w1, ?_, ?_, ?_, ?_⟩
  · simp [unpack_ttc, M.bind, emit, readFile, M.pure, hread, hg]
  · intro j hj
    exact hmem j (List.mem_range.mpr hj)
  · intro q hq
    exact hpres q (fun i hi => hq i (List.mem_range.mp hi))
  · exact hlog

theorem packLoop_run (w : World) {ps : List FPath} {gs : List Font}
    (h : List.Forall₂ (fun p g => w.fs.read p = some (FileData.ttf g)) ps gs) :
    packLoop ps w = (Except.ok gs, w) := by
  induction h with
  | nil => rfl
  | cons h1 _ ih => simp [packLoop, M.bind, readFile, M.pure, h1, ih]

theorem forall2_range_map {α β : Type} (R : α → β → Prop) :
    ∀ (gs : List β) (φ : Nat → α),
      (∀ j (g : β), gs[j]? = some g → R (φ j) g) →
      List.Forall₂ R ((List.range gs.length).map φ) gs := by
  intro gs
  induction gs with
  | nil => intro φ _; simp
  | cons g gs ih =>
      intro φ h
      rw [List.length_cons, List.range_succ_eq_map, List.map_cons, List.map_map]
      exact List.Forall₂.cons (h 0 g (by simp))
        (ih (φ ∘ Nat.succ) (fun j g2 hg => h (j + 1) g2 (by simpa using hg)))

/-! ## Gate accounting -/

theorem gateStep_invariant {s s1 : GateState} (h : GateStep s s1) :
    s1.sem + gatedActiveCount s1 = s.sem + gatedActiveCount s := by
  cases h <;>
    simp [gatedActiveCount, List.countP_append, List.countP_cons] <;> omega

theorem gateReach_invariant (cap : Nat) (gating : List Bool) (s : GateState)
    (h : GateReach cap gating s) : s.sem + gatedActiveCount s = cap := by
  induction h with
  | init =>
      simp only [gateInit, gatedActiveCount, List.countP_map]
      simp
  | step _ hstep ih => rw [gateStep_invariant hstep, ih]

/-! ## Step positions in the collection task graph -/

theorem stepPos_lt_length (a : CollEv) :
    ∀ (l : List CollEv), a ∈ l → stepPos a l < l.length := by
  intro l
  induction l with
  | nil => intro h; cases h
  | cons b t ih =>
      intro h
      by_cases hb : b = a
      · simp [stepPos, hb]
      · rcases List.mem_cons.mp h with rfl | ht
        · exact absurd rfl hb
        · simpa [stepPos, hb] using ih ht

theorem stepPos_append_of_mem (a : CollEv) :
    ∀ (l t : List CollEv), a ∈ l → stepPos a (l ++ t) = stepPos a l := by
  intro l
  induction l with
  | nil => intro t h; cases h
  | cons b s ih =>
      intro t h
      by_cases hb : b = a
      · simp [stepPos, hb]
      · rcases List.mem_cons.mp h with rfl | hs
        · exact absurd rfl hb
        · simp [stepPos, hb, ih t hs]

theorem stepPos_append_of_not_mem (a : CollEv) :
    ∀ (l t : List CollEv), a ∉ l → stepPos a (l ++ t) = l.length + stepPos a t := by
  intro l
  induction l with
  | nil => intro t _; simp
  | cons b s ih =>
      intro t h
      have hb : b ≠ a := fun hh => h (hh ▸ List.mem_cons_self b s)
      have hs : a ∉ s := fun hh => h (List.mem_cons_of_mem b hh)
      simp [stepPos, hb, ih t hs]
      omega

theorem transformStep_mem_memberSteps (n i : Nat) (h : i < n) :
    CollEv.transformStep i ∈ memberSteps n := by
  simp only [memberSteps, List.mem_flatMap]
  exact ⟨i, List.mem_range.mpr h, by simp [memberCoro]⟩

theorem packStep_not_mem_memberSteps (n : Nat) : CollEv.packStep ∉ memberSteps n := by
  simp only [memberSteps, List.mem_flatMap]
  rintro ⟨i, _, hmem⟩
  simp [memberCoro] at hmem

/-! ## Running download_file and process_ttf_worker -/

theorem download_file_run_ok (resp : HttpResponse) (url : String) (save : FPath)
    (w : World) (h : resp.status = 200) :
    download_file resp url save w =
      (Except.ok true, ⟨w.fs.write save resp.payload, w.log ++ [Ev.fetch save]⟩) := by
  simp [download_file, M.bind, M.pure, emit, writeFile, h]

theorem download_file_run_fail (resp : HttpResponse) (url : String) (save : FPath)
    (w : World) (h : resp.status ≠ 200) :
    download_file resp url save w =
      (Except.ok false, ⟨w.fs, w.log ++ [Ev.fetch save, Ev.logError url]⟩) := by
  simp [download_file, M.bind, M.pure, emit, h]

theorem process_ttf_worker_vf_run (in_ttf out_ttf temp_dir : FPath) (w : World)
    (f : Font) (v : Nat) (vv : VVARTable)
    (hread : w.fs.read in_ttf = some (FileData.ttf f))
    (haxes : f.fvarAxes.isSome)
    (hvorg : f.VORG = some v) (hvvar : f.VVAR = some vv) :
    process_ttf_worker in_ttf out_ttf temp_dir w =
      (Except.ok (),
        ⟨(w.fs.write (chwsOutputPath temp_dir in_ttf)
            (FileData.ttf (add_chws_patch f))).write out_ttf
            (FileData.ttf (vfInstanced f)),
         w.log ++ [Ev.addChws in_ttf, Ev.subset (chwsOutputPath temp_dir in_ttf),
                   Ev.vfinst (chwsOutputPath temp_dir in_ttf), Ev.ttfOut out_ttf]⟩) := by
  simp [process_ttf_worker, M.bind, M.pure, emit, readFile, writeFile, hread,
        FS.read_write_self, delete_from_cmap, add_chws_patch, haxes, hvorg, hvvar,
        vfInstanced, instantiateVariableFont]

theorem process_ttf_worker_vf_missing (in_ttf out_ttf temp_dir : FPath) (w : World)
    (f : Font)
    (hread : w.fs.read in_ttf = some (FileData.ttf f))
    (hfvar : f.fvarAxes.isSome)
    (hmiss : f.VORG = none ∨ f.VVAR = none) :
    process_ttf_worker in_ttf out_ttf temp_dir w =
      (Except.error (Err.keyError (if f.VORG = none then ("VORG") else ("VVAR"))),
       ⟨w.fs.write (chwsOutputPath temp_dir in_ttf) (FileData.ttf (add_chws_patch f)),
        w.log ++ [Ev.addChws in_ttf, Ev.subset (chwsOutputPath temp_dir in_ttf),
                  Ev.vfinst (chwsOutputPath temp_dir in_ttf)]⟩) := by
  cases hvo : f.VORG with
  | none =>
      simp [process_ttf_worker, M.bind, M.pure, M.raise, emit, readFile, writeFile,
            hread, FS.read_write_self, delete_from_cmap, add_chws_patch, hfvar, hvo]
  | some v =>
      have hvv : f.VVAR = none := by
        rcases hmiss with h | h
        · rw [hvo] at h; cases h
        · exact h
      simp [process_ttf_worker, M.bind, M.pure, M.raise, emit, readFile, writeFile,
            hread, FS.read_write_self, delete_from_cmap, add_chws_patch, hfvar, hvo, hvv]

/-! ## Claim theorems -/

/-- C1 counterexample: a run in which one asset chain raises (here a
FileNotFoundError) makes asyncio.gather re-raise, and the line
shutil.rmtree(temp_dir) after it never executes: the teardown count of the
failing run is 0, not the claimed exactly once. -/
theorem C1_counterexample :
    mainDriver [Except.error (Err.fileNotFound tempRoot)]
      = (Except.error (Err.fileNotFound tempRoot), 0) ∧
    (mainDriver [Except.error (Err.fileNotFound tempRoot)]).2 ≠ 1 := by
  exact ⟨rfl, by decide⟩

/-- C1 (amended): the staging root is deleted exactly once at the end of a
run only on the success path; when a chain failure propagates out of
asyncio.gather, main has no try / finally around the teardown, so
shutil.rmtree does not execute and the process exits with the raised
failure. -/
theorem C1_teardown_only_on_success (chains : List ChainResult) :
    (gatherResults chains = Except.ok () →
      mainDriver chains = (Except.ok (), 1)) ∧
    (∀ e : Err, gatherResults chains = Except.error e →
      mainDriver chains = (Except.error e, 0)) := by
  constructor
  · intro h; simp [mainDriver, h]
  · intro e h; simp [mainDriver, h]

/-- C1 witness: a successful run tears staging down once; a failing run
tears it down zero times. -/
theorem C1_teardown_only_on_success_witness :
    mainDriver [Except.ok ()] = (Except.ok (), 1) ∧
    mainDriver [Except.error (Err.keyError ("VORG"))]
      = (Except.error (Err.keyError ("VORG")), 0) :=
  ⟨(C1_teardown_only_on_success [Except.ok ()]).1 rfl,
   (C1_teardown_only_on_success [Except.error (Err.keyError ("VORG"))]).2
     (Err.keyError ("VORG")) rfl⟩

/-- C2 counterexample: a response with status 204, which lies inside the
2xx range, is nonetheless treated as a failure by download_file (the code
compares against exactly 200): the call returns the failure boolean and
writes no output file, contradicting the claim that every 2xx-status
response proceeds and returns success. -/
theorem C2_counterexample :
    (download_file ⟨204, FileData.raw []⟩ ("u") [("f")] ⟨[], []⟩).1
      = Except.ok false ∧
    200 ≤ 204 ∧ 204 < 300 ∧
    ((download_file ⟨204, FileData.raw []⟩ ("u") [("f")] ⟨[], []⟩).2).fs.read [("f")]
      = none := by
  refine ⟨rfl, by omega, by omega, rfl⟩

/-- C2 (amended): download_file succeeds exactly on status 200. For a
status-200 response the body is streamed to the destination and the call
returns success; for any other status (including other 2xx codes such as
204) it logs an error and returns the failure boolean without raising,
issues no second request (the log gains exactly one FETCH line), and writes
no output file. -/
theorem C2_download_status_exactly_200 (resp : HttpResponse) (url : String)
    (save : FPath) (w : World) :
    (resp.status = 200 →
      download_file resp url save w =
        (Except.ok true, ⟨w.fs.write save resp.payload, w.log ++ [Ev.fetch save]⟩)) ∧
    (resp.status ≠ 200 →
      download_file resp url save w =
        (Except.ok false, ⟨w.fs, w.log ++ [Ev.fetch save, Ev.logError url]⟩)) :=
  ⟨fun h => download_file_run_ok resp url save w h,
   fun h => download_file_run_fail resp url save w h⟩

/-- C2 witness: a 200 response is written to the destination and reported
as success; a 404 response is logged and reported as failure with nothing
written. -/
theorem C2_download_status_exactly_200_witness :
    download_file ⟨200, FileData.raw [7]⟩ ("u") [("d"), ("f")] ⟨[], []⟩
      = (Except.ok true,
         ⟨[([("d"), ("f")], FileData.raw [7])], [Ev.fetch [("d"), ("f")]]⟩) ∧
    download_file ⟨404, FileData.raw []⟩ ("u") [("d"), ("f")] ⟨[], []⟩
      = (Except.ok false,
         ⟨[], [Ev.fetch [("d"), ("f")], Ev.logError ("u")]⟩) :=
  ⟨(C2_download_status_exactly_200 ⟨200, FileData.raw [7]⟩ ("u") [("d"), ("f")]
      ⟨[], []⟩).1 rfl,
   (C2_download_status_exactly_200 ⟨404, FileData.raw []⟩ ("u") [("d"), ("f")]
      ⟨[], []⟩).2 (by decide)⟩

/-- C6 (confirmed): the codepoint exclusion set is the fixed union of the
ASCII control characters 0x0000 to 0x001F, the documented CJK-context
emoji-style set and the documented Android-specific emoji-override set; it
contains 0x26BD and 0x0009 and does not contain 0x0041. It is a constant
of the program (a frozenset built once at import time); no operation below
takes it as mutable state. -/
theorem C6_excluded_codepoints :
    EXCLUDED_CODEPOINTS = EMOJI_IN_CJK ∪ ANDROID_EMOJI ∪ CONTROL_CHARS ∧
    (∀ c, c ∈ CONTROL_CHARS ↔ c < 0x20) ∧
    (∀ c, c < 0x20 → c ∈ EXCLUDED_CODEPOINTS) ∧
    0x26BD ∈ EXCLUDED_CODEPOINTS ∧
    0x0009 ∈ EXCLUDED_CODEPOINTS ∧
    0x0041 ∉ EXCLUDED_CODEPOINTS := by
  refine ⟨rfl, ?_, ?_, by decide, by decide, by decide⟩
  · intro c; simp [CONTROL_CHARS, Finset.mem_range]
  · intro c hc
    simp only [EXCLUDED_CODEPOINTS, Finset.mem_union, CONTROL_CHARS, Finset.mem_range]
    omega

/-- C6 witness: the tab character 0x0009 is an ASCII control character and
is excluded. -/
theorem C6_excluded_codepoints_witness :
    (0x0009 ∈ CONTROL_CHARS ↔ 0x0009 < 0x20) ∧ 0x0009 ∈ EXCLUDED_CODEPOINTS :=
  ⟨C6_excluded_codepoints.2.1 0x0009,
   C6_excluded_codepoints.2.2.1 0x0009 (by omega)⟩

/-- C3 counterexample: the orchestrator discards the boolean result of
download_file. With a stale file already present at the staging destination
(for instance left over from an earlier run, which a failed run does not
clean up), a chain whose download fails with 404 still executes the
transform stage on the stale file and completes successfully: the ADD_CHWS
stage runs and the processed output is written, so the chain is neither
terminal in a failed state nor free of later stages. -/
theorem C3_counterexample :
    (download_and_process_file ⟨404, FileData.raw []⟩ ("u/x.ttf")
        ⟨[([("temp"), ("input"), ("x.ttf")],
           FileData.ttf ⟨[], none, none, none, 0, false, 0⟩)], []⟩).1
      = Except.ok () ∧
    Ev.addChws [("temp"), ("input"), ("x.ttf")]
      ∈ (download_and_process_file ⟨404, FileData.raw []⟩ ("u/x.ttf")
        ⟨[([("temp"), ("input"), ("x.ttf")],
           FileData.ttf ⟨[], none, none, none, 0, false, 0⟩)], []⟩).2.log ∧
    (download_and_process_file ⟨404, FileData.raw []⟩ ("u/x.ttf")
        ⟨[([("temp"), ("input"), ("x.ttf")],
           FileData.ttf ⟨[], none, none, none, 0, false, 0⟩)], []⟩).2.fs.read
        [("system"), ("fonts"), ("x.ttf")]
      = some (FileData.ttf ⟨[], none, none, none, 0, true, 0⟩) := by
  refine ⟨rfl, by decide, rfl⟩

/-- C3 (amended): the orchestrator does not consult the failure signal of
download_file; it invokes process_font unconditionally. When the staging
destination holds no file, the failed download leaves none behind, so the
container probe raises FileNotFoundError at once: no unpack, transform or
pack stage executes (the log gains only the FETCH line and the error line)
and the chain terminates with a raised failure instead of a reported
terminal failed state. When a stale destination file exists, later stages
do execute on it (see the counterexample). -/
theorem C3_failed_fetch_no_later_stage (resp : HttpResponse) (url : String) (w : World)
    (hfail : resp.status ≠ 200)
    (hclean : w.fs.read (tempRoot ++ [("input"), base_file_name url]) = none) :
    (download_and_process_file resp url w).1
      = Except.error (Err.fileNotFound (tempRoot ++ [("input"), base_file_name url])) ∧
    (download_and_process_file resp url w).2.fs = w.fs ∧
    (download_and_process_file resp url w).2.log
      = w.log ++ [Ev.fetch (tempRoot ++ [("input"), base_file_name url]),
                  Ev.logError url] := by
  have hd := download_file_run_fail resp url
    (tempRoot ++ [("input"), base_file_name url]) w hfail
  refine ⟨?_, ?_, ?_⟩ <;>
    simp [download_and_process_file, M.bind, hd, process_font, process_ttf,
          is_ttc, readFile, hclean]

/-- C3 witness: with an empty staging area, a 404 download leaves the chain
failing on the missing input file, with no stage beyond the fetch. -/
theorem C3_failed_fetch_no_later_stage_witness :
    (download_and_process_file ⟨404, FileData.raw []⟩ ("u/y.ttf") ⟨[], []⟩).1
      = Except.error (Err.fileNotFound [("temp"), ("input"), ("y.ttf")]) ∧
    (download_and_process_file ⟨404, FileData.raw []⟩ ("u/y.ttf") ⟨[], []⟩).2.fs = [] ∧
    (download_and_process_file ⟨404, FileData.raw []⟩ ("u/y.ttf") ⟨[], []⟩).2.log
      = [Ev.fetch [("temp"), ("input"), ("y.ttf")], Ev.logError ("u/y.ttf")] :=
  C3_failed_fetch_no_later_stage ⟨404, FileData.raw []⟩ ("u/y.ttf") ⟨[], []⟩
    (by decide) rfl

/-- C5 counterexample: a font that declares a variable-weight axis but
carries no VORG table makes transform raise KeyError at the unconditional
deletion of VORG: no output font is produced at all, so the claimed
conclusion (static output with no vertical-origin table and unchanged
naming) fails for this weight-axis input. -/
theorem C5_counterexample :
    (process_ttf_worker [("in")] [("out")] [("tmp")]
        ⟨[([("in")], FileData.ttf
            ⟨[], some [("wght")], none, some ⟨some 7, 3⟩, 5, false, 9⟩)], []⟩).1
      = Except.error (Err.keyError ("VORG")) ∧
    (process_ttf_worker [("in")] [("out")] [("tmp")]
        ⟨[([("in")], FileData.ttf
            ⟨[], some [("wght")], none, some ⟨some 7, 3⟩, 5, false, 9⟩)], []⟩).2.fs.read
        [("out")]
      = none := ⟨rfl, rfl⟩

/-- C5 (amended): for every input font that declares a variable-weight axis
and carries both the vertical-origin table VORG and the vertical metrics
variation table VVAR, transform deletes VORG, clears the VOrgMap of VVAR,
and resolves the weight axis with the instance tuple min 100 / default 400 /
max 900 without updating font names: the saved output font is static (no
variable axis table), has no vertical-origin table, has the cleared VOrgMap,
and its naming metadata is unmodified. -/
theorem C5_vf_instancing (in_ttf out_ttf temp_dir : FPath) (w : World)
    (f : Font) (axes : List String) (v : Nat) (vv : VVARTable)
    (hread : w.fs.read in_ttf = some (FileData.ttf f))
    (haxes : f.fvarAxes = some axes) (hwght : ("wght") ∈ axes)
    (hvorg : f.VORG = some v) (hvvar : f.VVAR = some vv) :
    (process_ttf_worker in_ttf out_ttf temp_dir w).1 = Except.ok () ∧
    (process_ttf_worker in_ttf out_ttf temp_dir w).2.fs.read out_ttf
      = some (FileData.ttf (vfInstanced f)) ∧
    (vfInstanced f).fvarAxes = none ∧
    (vfInstanced f).VORG = none ∧
    (vfInstanced f).VVAR = some ⟨none, vv.restData⟩ ∧
    (vfInstanced f).nameData = f.nameData ∧
    (process_ttf_worker in_ttf out_ttf temp_dir w).2.log
      = w.log ++ [Ev.addChws in_ttf, Ev.subset (chwsOutputPath temp_dir in_ttf),
                  Ev.vfinst (chwsOutputPath temp_dir in_ttf), Ev.ttfOut out_ttf] := by
  have hrun := process_ttf_worker_vf_run in_ttf out_ttf temp_dir w f v vv hread
    (by simp [haxes]) hvorg hvvar
  rw [hrun]
  refine ⟨rfl, FS.read_write_self _ _ _, ?_, ?_, ?_, ?_, rfl⟩
  · simp [vfInstanced, instantiateVariableFont]
  · simp [vfInstanced, instantiateVariableFont, delete_from_cmap, add_chws_patch]
  · simp [vfInstanced, instantiateVariableFont, delete_from_cmap, add_chws_patch, hvvar]
  · simp [vfInstanced, instantiateVariableFont, delete_from_cmap, add_chws_patch]

/-- C5 witness: a concrete weight-axis font with VORG and VVAR present is
transformed into the static instanced font with both vertical-origin data
gone and the name data untouched. -/
theorem C5_vf_instancing_witness :
    (process_ttf_worker [("i")] [("o")] [("t")]
        ⟨[([("i")], FileData.ttf
            ⟨[(0x41, 1)], some [("wght")], some 3, some ⟨some 4, 8⟩, 11, false, 2⟩)],
         []⟩).1 = Except.ok () ∧
    (process_ttf_worker [("i")] [("o")] [("t")]
        ⟨[([("i")], FileData.ttf
            ⟨[(0x41, 1)], some [("wght")], some 3, some ⟨some 4, 8⟩, 11, false, 2⟩)],
         []⟩).2.fs.read [("o")]
      = some (FileData.ttf (vfInstanced
          ⟨[(0x41, 1)], some [("wght")], some 3, some ⟨some 4, 8⟩, 11, false, 2⟩)) ∧
    (vfInstanced
        ⟨[(0x41, 1)], some [("wght")], some 3, some ⟨some 4, 8⟩, 11, false, 2⟩).fvarAxes
      = none ∧
    (vfInstanced
        ⟨[(0x41, 1)], some [("wght")], some 3, some ⟨some 4, 8⟩, 11, false, 2⟩).VORG
      = none ∧
    (vfInstanced
        ⟨[(0x41, 1)], some [("wght")], some 3, some ⟨some 4, 8⟩, 11, false, 2⟩).VVAR
      = some ⟨none, 8⟩ ∧
    (vfInstanced
        ⟨[(0x41, 1)], some [("wght")], some 3, some ⟨some 4, 8⟩, 11, false, 2⟩).nameData
      = 11 ∧
    (process_ttf_worker [("i")] [("o")] [("t")]
        ⟨[([("i")], FileData.ttf
            ⟨[(0x41, 1)], some [("wght")], some 3, some ⟨some 4, 8⟩, 11, false, 2⟩)],
         []⟩).2.log
      = [Ev.addChws [("i")], Ev.subset [("t"), ("intermediate_chws"), ("i")],
         Ev.vfinst [("t"), ("intermediate_chws"), ("i")], Ev.ttfOut [("o")]] :=
  C5_vf_instancing [("i")] [("o")] [("t")]
    ⟨[([("i")], FileData.ttf
        ⟨[(0x41, 1)], some [("wght")], some 3, some ⟨some 4, 8⟩, 11, false, 2⟩)], []⟩
    ⟨[(0x41, 1)], some [("wght")], some 3, some ⟨some 4, 8⟩, 11, false, 2⟩
    [("wght")] 3 ⟨some 4, 8⟩ rfl rfl (by decide) rfl rfl

/-- C10 (confirmed): the variable-font branch of transform is taken whenever
the fvar table is present (any variable axis); when the font then lacks the
VORG table or the VVAR table, the unconditional deletion of VORG or the
access to VVAR raises a KeyError, the worker terminates with that raised
lookup error after the VFINST line, and no output file is written at the
output path. -/
theorem C10_vf_missing_tables (in_ttf out_ttf temp_dir : FPath) (w : World) (f : Font)
    (hread : w.fs.read in_ttf = some (FileData.ttf f))
    (hfvar : f.fvarAxes.isSome)
    (hmiss : f.VORG = none ∨ f.VVAR = none)
    (hout : out_ttf ≠ chwsOutputPath temp_dir in_ttf) :
    (process_ttf_worker in_ttf out_ttf temp_dir w).1
      = Except.error (Err.keyError (if f.VORG = none then ("VORG") else ("VVAR"))) ∧
    (process_ttf_worker in_ttf out_ttf temp_dir w).2.fs.read out_ttf
      = w.fs.read out_ttf ∧
    (process_ttf_worker in_ttf out_ttf temp_dir w).2.log
      = w.log ++ [Ev.addChws in_ttf, Ev.subset (chwsOutputPath temp_dir in_ttf),
                  Ev.vfinst (chwsOutputPath temp_dir in_ttf)] := by
  have hrun := process_ttf_worker_vf_missing in_ttf out_ttf temp_dir w f hread hfvar hmiss
  rw [hrun]
  exact ⟨rfl, FS.read_write_ne _ _ _ _ hout, rfl⟩

/-- C10 witness: a font whose only variable axis is wdth (not a weight
axis) with VVAR present but VORG absent takes the variable-font branch and
fails with the VORG lookup error, writing nothing to the output path. -/
theorem C10_vf_missing_tables_witness :
    (process_ttf_worker [("a")] [("b")] [("c")]
        ⟨[([("a")], FileData.ttf
            ⟨[], some [("wdth")], none, some ⟨some 1, 2⟩, 0, false, 0⟩)], []⟩).1
      = Except.error (Err.keyError (if (none : Option Nat) = none
          then ("VORG") else ("VVAR"))) ∧
    (process_ttf_worker [("a")] [("b")] [("c")]
        ⟨[([("a")], FileData.ttf
            ⟨[], some [("wdth")], none, some ⟨some 1, 2⟩, 0, false, 0⟩)], []⟩).2.fs.read
        [("b")]
      = (⟨[([("a")], FileData.ttf
            ⟨[], some [("wdth")], none, some ⟨some 1, 2⟩, 0, false, 0⟩)], []⟩ : World).fs.read
        [("b")] ∧
    (process_ttf_worker [("a")] [("b")] [("c")]
        ⟨[([("a")], FileData.ttf
            ⟨[], some [("wdth")], none, some ⟨some 1, 2⟩, 0, false, 0⟩)], []⟩).2.log
      = [] ++ [Ev.addChws [("a")], Ev.subset [("c"), ("intermediate_chws"), ("a")],
               Ev.vfinst [("c"), ("intermediate_chws"), ("a")]] :=
  C10_vf_missing_tables [("a")] [("b")] [("c")]
    ⟨[([("a")], FileData.ttf
        ⟨[], some [("wdth")], none, some ⟨some 1, 2⟩, 0, false, 0⟩)], []⟩
    ⟨[], some [("wdth")], none, some ⟨some 1, 2⟩, 0, false, 0⟩
    rfl rfl (Or.inl rfl) (by decide)

/-- C4 (confirmed): for every collection with members in container order,
unpack returns exactly the ordered member paths, and pack applied to that
returned list, with the members unchanged on disk, writes a collection with
the same member count and the same members in the same order (member i in
equals member i out). -/
theorem C4_unpack_pack_roundtrip (in_ttc out_dir out_ttc : FPath)
    (fonts : List Font) (w : World)
    (hread : w.fs.read in_ttc = some (FileData.ttc fonts)) :
    (unpack_ttc in_ttc out_dir w).1
      = Except.ok ((List.range fonts.length).map (memberPath out_dir in_ttc)) ∧
    ((List.range fonts.length).map (memberPath out_dir in_ttc)).length
      = fonts.length ∧
    (pack_ttc ((List.range fonts.length).map (memberPath out_dir in_ttc)) out_ttc
        (unpack_ttc in_ttc out_dir w).2).1 = Except.ok () ∧
    ((pack_ttc ((List.range fonts.length).map (memberPath out_dir in_ttc)) out_ttc
        (unpack_ttc in_ttc out_dir w).2).2).fs.read out_ttc
      = some (FileData.ttc fonts) := by
  obtain ⟨w1, hu, hmem, hpres, hlog⟩ := unpack_ttc_run in_ttc out_dir fonts w hread
  have h1 : (unpack_ttc in_ttc out_dir w).1
      = Except.ok ((List.range fonts.length).map (memberPath out_dir in_ttc)) := by
    rw [hu]
  have h2 : (unpack_ttc in_ttc out_dir w).2 = w1 := by rw [hu]
  have hfa : List.Forall₂
      (fun p g => (⟨w1.fs, w1.log ++ [Ev.ttcOut out_ttc]⟩ : World).fs.read p
        = some (FileData.ttf g))
      ((List.range fonts.length).map (memberPath out_dir in_ttc)) fonts := by
    apply forall2_range_map
    intro j g hg
    obtain ⟨hj, _⟩ := List.getElem?_eq_some.1 hg
    show w1.fs.read (memberPath out_dir in_ttc j) = some (FileData.ttf g)
    rw [hmem j hj, hg]
    rfl
  have hpl := packLoop_run (⟨w1.fs, w1.log ++ [Ev.ttcOut out_ttc]⟩ : World) hfa
  have hpack : pack_ttc ((List.range fonts.length).map (memberPath out_dir in_ttc))
      out_ttc w1
      = (Except.ok (), ⟨w1.fs.write out_ttc (FileData.ttc fonts),
                        w1.log ++ [Ev.ttcOut out_ttc]⟩) := by
    simp [pack_ttc, M.bind, emit, hpl, writeFile, M.pure]
  refine ⟨h1, by simp, ?_, ?_⟩
  · rw [h2, hpack]
  · rw [h2, hpack]
    exact FS.read_write_self _ _ _

/-- C4 witness: a concrete two-member collection round-trips through unpack
and pack into a collection with the same two members in the same order. -/
theorem C4_unpack_pack_roundtrip_witness :
    (unpack_ttc [("in.ttc")] [("o")]
        ⟨[([("in.ttc")], FileData.ttc
            [⟨[], none, none, none, 0, false, 1⟩, ⟨[], none, none, none, 0, false, 2⟩])],
         []⟩).1
      = Except.ok ((List.range
          ([⟨[], none, none, none, 0, false, 1⟩,
            ⟨[], none, none, none, 0, false, 2⟩] : List Font).length).map
          (memberPath [("o")] [("in.ttc")])) ∧
    ((List.range
        ([⟨[], none, none, none, 0, false, 1⟩,
          ⟨[], none, none, none, 0, false, 2⟩] : List Font).length).map
        (memberPath [("o")] [("in.ttc")])).length
      = ([⟨[], none, none, none, 0, false, 1⟩,
          ⟨[], none, none, none, 0, false, 2⟩] : List Font).length ∧
    (pack_ttc ((List.range
        ([⟨[], none, none, none, 0, false, 1⟩,
          ⟨[], none, none, none, 0, false, 2⟩] : List Font).length).map
        (memberPath [("o")] [("in.ttc")])) [("out.ttc")]
        (unpack_ttc [("in.ttc")] [("o")]
          ⟨[([("in.ttc")], FileData.ttc
              [⟨[], none, none, none, 0, false, 1⟩,
               ⟨[], none, none, none, 0, false, 2⟩])], []⟩).2).1
      = Except.ok () ∧
    ((pack_ttc ((List.range
        ([⟨[], none, none, none, 0, false, 1⟩,
          ⟨[], none, none, none, 0, false, 2⟩] : List Font).length).map
        (memberPath [("o")] [("in.ttc")])) [("out.ttc")]
        (unpack_ttc [("in.ttc")] [("o")]
          ⟨[([("in.ttc")], FileData.ttc
              [⟨[], none, none, none, 0, false, 1⟩,
               ⟨[], none, none, none, 0, false, 2⟩])], []⟩).2).2).fs.read [("out.ttc")]
      = some (FileData.ttc
          [⟨[], none, none, none, 0, false, 1⟩, ⟨[], none, none, none, 0, false, 2⟩]) :=
  C4_unpack_pack_roundtrip [("in.ttc")] [("o")] [("out.ttc")]
    [⟨[], none, none, none, 0, false, 1⟩, ⟨[], none, none, none, 0, false, 2⟩]
    ⟨[([("in.ttc")], FileData.ttc
        [⟨[], none, none, none, 0, false, 1⟩, ⟨[], none, none, none, 0, false, 2⟩])],
     []⟩ rfl

/-- C7 (confirmed): unpack of a collection with n members returns the
ordered list of exactly n paths whose element i is
out_dir slash, container filename, hash sign, decimal i, ttf suffix, and
member i of the container is written to exactly that path. -/
theorem C7_unpack_member_paths (in_ttc out_dir : FPath) (fonts : List Font)
    (w : World)
    (hread : w.fs.read in_ttc = some (FileData.ttc fonts)) :
    (unpack_ttc in_ttc out_dir w).1
      = Except.ok ((List.range fonts.length).map (memberPath out_dir in_ttc)) ∧
    ((List.range fonts.length).map (memberPath out_dir in_ttc)).length
      = fonts.length ∧
    (∀ i, i < fonts.length →
      ((List.range fonts.length).map (memberPath out_dir in_ttc))[i]?
        = some (out_dir ++ [pathName in_ttc ++ ("#") ++ Nat.repr i ++ (".ttf")])) ∧
    (∀ i, i < fonts.length →
      (unpack_ttc in_ttc out_dir w).2.fs.read (memberPath out_dir in_ttc i)
        = (fonts[i]?).map FileData.ttf) := by
  obtain ⟨w1, hu, hmem, hpres, hlog⟩ := unpack_ttc_run in_ttc out_dir fonts w hread
  refine ⟨by rw [hu], by simp, ?_, ?_⟩
  · intro i hi
    simp [List.getElem?_map, List.getElem?_range, hi, memberPath, memberFileName]
  · intro i hi
    have h2 : (unpack_ttc in_ttc out_dir w).2 = w1 := by rw [hu]
    rw [h2]
    exact hmem i hi

/-- C7 witness: unpacking a concrete two-member collection yields the two
indexed paths in order, with member 0 at index 0 and member 1 at index 1. -/
theorem C7_unpack_member_paths_witness :
    (unpack_ttc [("c.ttc")] [("d")]
        ⟨[([("c.ttc")], FileData.ttc
            [⟨[], none, none, none, 3, false, 0⟩, ⟨[], none, none, none, 4, false, 0⟩])],
         []⟩).1
      = Except.ok [[("d"), ("c.ttc#0.ttf")], [("d"), ("c.ttc#1.ttf")]] ∧
    (unpack_ttc [("c.ttc")] [("d")]
        ⟨[([("c.ttc")], FileData.ttc
            [⟨[], none, none, none, 3, false, 0⟩, ⟨[], none, none, none, 4, false, 0⟩])],
         []⟩).2.fs.read [("d"), ("c.ttc#0.ttf")]
      = some (FileData.ttf ⟨[], none, none, none, 3, false, 0⟩) ∧
    (unpack_ttc [("c.ttc")] [("d")]
        ⟨[([("c.ttc")], FileData.ttc
            [⟨[], none, none, none, 3, false, 0⟩, ⟨[], none, none, none, 4, false, 0⟩])],
         []⟩).2.fs.read [("d"), ("c.ttc#1.ttf")]
      = some (FileData.ttf ⟨[], none, none, none, 4, false, 0⟩) := by
  have h := C7_unpack_member_paths [("c.ttc")] [("d")]
    [⟨[], none, none, none, 3, false, 0⟩, ⟨[], none, none, none, 4, false, 0⟩]
    ⟨[([("c.ttc")], FileData.ttc
        [⟨[], none, none, none, 3, false, 0⟩, ⟨[], none, none, none, 4, false, 0⟩])],
     []⟩ rfl
  exact ⟨h.1, h.2.2.2 0 (by decide), h.2.2.2 1 (by decide)⟩

/-- C8 counterexample: in the default run the semaphore has capacity 2 and
three downloads are pending, but the installer-script download is launched
without the gate (download_file receives no async context). The scheduler
can start both gated font downloads and the ungated installer download, at
which point three downloads are simultaneously active, exceeding the gate
capacity; so not every download acquires a slot before starting. -/
theorem C8_counterexample :
    GateReach mainGateCap mainGating
      ⟨0, [(true, TaskPhase.active), (true, TaskPhase.active),
           (false, TaskPhase.active)]⟩ ∧
    activeCount
      ⟨0, [(true, TaskPhase.active), (true, TaskPhase.active),
           (false, TaskPhase.active)]⟩ = 3 ∧
    mainGateCap < 3 := by
  refine ⟨?_, by decide, by decide⟩
  exact GateReach.step
    (GateReach.step
      (GateReach.step GateReach.init
        (GateStep.startGated 1 []
          [(true, TaskPhase.pending), (false, TaskPhase.pending)]))
      (GateStep.startGated 0 [(true, TaskPhase.active)]
        [(false, TaskPhase.pending)]))
    (GateStep.startUngated 0
      [(true, TaskPhase.active), (true, TaskPhase.active)] [])

/-- C8 (amended): the downloads that are handed the shared counting gate
(the font-asset downloads of main) acquire a slot before their transfer
starts and release it when the transfer completes, successful or not, so in
every reachable state of a run with gate capacity N the number of
simultaneously active gated downloads is at most N; the installer-script
download bypasses the gate, so the bound on all simultaneous downloads in
the default run is N plus one, not N (see the counterexample). -/
theorem C8_gated_downloads_bounded (cap : Nat) (gating : List Bool)
    (s : GateState) (h : GateReach cap gating s) :
    gatedActiveCount s ≤ cap := by
  have hinv := gateReach_invariant cap gating s h
  omega

/-- C8 witness: the bound holds in a concrete reachable state of the
default run, with both gated downloads active. -/
theorem C8_gated_downloads_bounded_witness :
    gatedActiveCount
      ⟨0, [(true, TaskPhase.active), (true, TaskPhase.active),
           (false, TaskPhase.pending)]⟩ ≤ mainGateCap :=
  C8_gated_downloads_bounded mainGateCap mainGating
    ⟨0, [(true, TaskPhase.active), (true, TaskPhase.active),
         (false, TaskPhase.pending)]⟩
    (GateReach.step
      (GateReach.step GateReach.init
        (GateStep.startGated 1 []
          [(true, TaskPhase.pending), (false, TaskPhase.pending)]))
      (GateStep.startGated 0 [(true, TaskPhase.active)]
        [(false, TaskPhase.pending)]))

/-- C9 (confirmed): in every valid execution of process_ttc on a collection
with n members (any interleaving of the member coroutines permitted by the
await structure, followed by the pack step that runs only after
asyncio.gather returns), every member transform step occurs strictly before
the pack step; and the path list process_ttc hands to pack_ttc lists the
processed member paths in original member order, index 0 through n minus 1. -/
theorem C9_repack_after_all_transforms (n : Nat) (τ : List CollEv)
    (temp_dir in_ttc : FPath) (hexec : ValidExec n τ) :
    (∀ i, i < n →
      stepPos (CollEv.transformStep i) τ < stepPos CollEv.packStep τ) ∧
    (∀ i, i < n → (processTtcPackArgs temp_dir in_ttc n)[i]?
        = some (processedTtfPath temp_dir in_ttc i)) := by
  obtain ⟨σ, ⟨hperm, _⟩, rfl⟩ := hexec
  constructor
  · intro i hi
    have hmem : CollEv.transformStep i ∈ σ :=
      hperm.mem_iff.mpr (transformStep_mem_memberSteps n i hi)
    have hnp : CollEv.packStep ∉ σ := fun hc =>
      packStep_not_mem_memberSteps n (hperm.mem_iff.mp hc)
    rw [stepPos_append_of_mem _ σ [CollEv.packStep] hmem,
        stepPos_append_of_not_mem _ σ [CollEv.packStep] hnp]
    have hlt := stepPos_lt_length _ σ hmem
    simp [stepPos]
    omega
  · intro i hi
    simp [processTtcPackArgs, List.getElem?_map, List.getElem?_range, hi]

/-- C9 witness: in the concrete interleaved execution that unpacks both
members first and transforms them in reversed order, both transforms still
precede the pack step, and the pack arguments are the two member paths in
order. -/
theorem C9_repack_after_all_transforms_witness :
    stepPos (CollEv.transformStep 0)
      ([CollEv.unpackStep 0, CollEv.unpackStep 1, CollEv.transformStep 1,
        CollEv.transformStep 0] ++ [CollEv.packStep])
      < stepPos CollEv.packStep
      ([CollEv.unpackStep 0, CollEv.unpackStep 1, CollEv.transformStep 1,
        CollEv.transformStep 0] ++ [CollEv.packStep]) ∧
    (processTtcPackArgs [("t")] [("c.ttc")] 2)[0]?
      = some (processedTtfPath [("t")] [("c.ttc")] 0) ∧
    (processTtcPackArgs [("t")] [("c.ttc")] 2)[1]?
      = some (processedTtfPath [("t")] [("c.ttc")] 1) := by
  have h := C9_repack_after_all_transforms 2
    ([CollEv.unpackStep 0, CollEv.unpackStep 1, CollEv.transformStep 1,
      CollEv.transformStep 0] ++ [CollEv.packStep])
    [("t")] [("c.ttc")]
    ⟨[CollEv.unpackStep 0, CollEv.unpackStep 1, CollEv.transformStep 1,
      CollEv.transformStep 0], ⟨by decide, by decide⟩, rfl⟩
  exact ⟨h.1 0 (by decide), h.2 0 (by decide), h.2 1 (by decide)⟩
